import Mathlib

/-!
Verification of the resonite-audio-light-controller core
(band extraction, color mapping, pattern engine) against its
natural-language specification.

The Python source is shallowly embedded over `ℚ`:
* Python float arithmetic is modelled as exact rational arithmetic;
* `a % b` on floats (with `b > 0`) is modelled by `pymod`;
* `int(x)` (truncation toward zero) is modelled by `pytrunc`;
* the magnitude spectrum `np.abs(np.fft.rfft(windowed))` is an
  arbitrary list of non-negative rationals handed to the band
  arithmetic, since the windowing/FFT itself is transcendental and
  every claim is about what happens downstream of it;
* `math.sin` and `math.pi` (used only by the breathing pattern and
  the rotation policy) are abstracted as an oracle parameter.
-/

namespace ALC

/-- Python's float `a % b` for `b > 0`: result in `[0, b)` with the sign
of the divisor, i.e. `a - b * ⌊a / b⌋`. -/
def pymod (a b : ℚ) : ℚ := a - b * ⌊a / b⌋

/-- Python's `int(x)`: truncation toward zero. -/
def pytrunc (x : ℚ) : ℤ := if 0 ≤ x then ⌊x⌋ else ⌈x⌉

theorem pymod_nonneg (a : ℚ) {b : ℚ} (hb : 0 < b) : 0 ≤ pymod a b := by
  unfold pymod
  have h1 : (⌊a / b⌋ : ℚ) ≤ a / b := Int.floor_le _
  have h2 : b * (⌊a / b⌋ : ℚ) ≤ a := by
    calc b * (⌊a / b⌋ : ℚ) ≤ b * (a / b) := by nlinarith
    _ = a := by field_simp
  linarith

theorem pymod_lt (a : ℚ) {b : ℚ} (hb : 0 < b) : pymod a b < b := by
  unfold pymod
  have h : a / b < (⌊a / b⌋ : ℚ) + 1 := Int.lt_floor_add_one _
  have h2 : a < ((⌊a / b⌋ : ℚ) + 1) * b := (div_lt_iff₀ hb).mp h
  nlinarith

theorem pymod_eq_self {a : ℚ} (h0 : 0 ≤ a) (h1 : a < 1) : pymod a 1 = a := by
  unfold pymod
  rw [div_one, Int.floor_eq_zero_iff.mpr ⟨h0, h1⟩]
  simp

theorem pytrunc_eq_floor {x : ℚ} (h : 0 ≤ x) : pytrunc x = ⌊x⌋ := by
  unfold pytrunc; rw [if_pos h]

/-! ## Band extractor (`src/audio_engine.py`) -/

/-- Energy levels in low, mid, and high frequency bands (0-1 normalized).
Mirrors the `FrequencyBands` dataclass. -/
structure FrequencyBands where
  low : ℚ
  upper_bass : ℚ
  mid : ℚ
  high : ℚ
  overall : ℚ
deriving Repr, DecidableEq

/-- The `np.mean` of a list: sum divided by length (`0 / 0 = 0` never arises on
the guarded call site). -/
def listMean (l : List ℚ) : ℚ := l.sum / (l.length : ℚ)

/-- The slice `l[a:b]` of a Python list for `0 ≤ a ≤ b`. -/
def pyslice (l : List ℚ) (a b : ℕ) : List ℚ := (l.drop a).take (b - a)

/-- Embeds the inner `band_energy` closure of `fft_frequency_bands`:
`low_bin = int(low_hz / bin_width)`, clamped at 0;
`high_bin = min(int(high_hz / bin_width) + 1, len(magnitudes))`;
empty ranges yield 0, otherwise the mean of the magnitude slice. -/
def band_energy (magnitudes : List ℚ) (bin_width : ℚ)
    (low_hz high_hz : ℚ) : ℚ :=
  let low_bin : ℤ := pytrunc (low_hz / bin_width)
  let high_bin : ℤ := min (pytrunc (high_hz / bin_width) + 1) (magnitudes.length : ℤ)
  let low_bin' : ℤ := max 0 low_bin
  if high_bin ≤ low_bin' then 0
  else listMean (pyslice magnitudes low_bin'.toNat high_bin.toNat)

/-- Embeds `fft_frequency_bands` downstream of the FFT: `magnitudes` stands
for `np.abs(np.fft.rfft(windowed))` (a list of `fft_size / 2 + 1`
non-negative reals); `bin_width = sample_rate / fft_size`; the five fixed
bands are averaged and normalized by
`scale = 1 / max(1e-6, max(all five) * 2)`, each clipped with `min 1`. -/
def fft_frequency_bands (magnitudes : List ℚ) (sample_rate fft_size : ℕ) :
    FrequencyBands :=
  let bin_width : ℚ := (sample_rate : ℚ) / (fft_size : ℚ)
  let low_e := band_energy magnitudes bin_width 20 250
  let upper_bass_e := band_energy magnitudes bin_width 60 150
  let mid_e := band_energy magnitudes bin_width 250 2000
  let high_e := band_energy magnitudes bin_width 2000 20000
  let overall_e := band_energy magnitudes bin_width 20 20000
  let scale : ℚ :=
    1 / max (1 / 1000000)
      (max low_e (max upper_bass_e (max mid_e (max high_e overall_e))) * 2)
  { low := min 1 (low_e * scale)
    upper_bass := min 1 (upper_bass_e * scale)
    mid := min 1 (mid_e * scale)
    high := min 1 (high_e * scale)
    overall := min 1 (overall_e * scale) }

theorem band_energy_nonneg {magnitudes : List ℚ}
    (hm : ∀ x ∈ magnitudes, 0 ≤ x) (bin_width low_hz high_hz : ℚ) :
    0 ≤ band_energy magnitudes bin_width low_hz high_hz := by
  unfold band_energy
  dsimp only
  split
  · exact le_refl 0
  · unfold listMean pyslice
    apply div_nonneg
    · apply List.sum_nonneg
      intro x hx
      exact hm x (List.mem_of_mem_drop (List.mem_of_mem_take hx))
    · exact_mod_cast Nat.zero_le _

/-- Band energy as the specification words it, with upper bin bound
`min(ceil(hi / bin_width), num_bins)`.  Modelled from the spec sentence
"average magnitude over bins [floor(lo/bin_width),
min(ceil(hi/bin_width), num_bins))"; used to compare against the
source-derived `band_energy`. -/
def specBandEnergyCeil (magnitudes : List ℚ) (bin_width lo hi : ℚ) : ℚ :=
  let lb : ℤ := ⌊lo / bin_width⌋
  let hb : ℤ := min ⌈hi / bin_width⌉ (magnitudes.length : ℤ)
  if hb ≤ lb then 0
  else
    (((List.range (hb - lb).toNat).map
        (fun i => magnitudes.getD (lb.toNat + i) 0)).sum) / ((hb - lb : ℤ) : ℚ)

/-- Band energy with upper bin bound `min(floor(hi / bin_width) + 1,
num_bins)`, the bound the source actually computes via `int(...) + 1`;
stated independently of the slicing so its equality with `band_energy`
is a genuine refinement. -/
def specBandEnergyFloorSucc (magnitudes : List ℚ) (bin_width lo hi : ℚ) : ℚ :=
  let lb : ℤ := ⌊lo / bin_width⌋
  let hb : ℤ := min (⌊hi / bin_width⌋ + 1) (magnitudes.length : ℤ)
  if hb ≤ lb then 0
  else
    (((List.range (hb - lb).toNat).map
        (fun i => magnitudes.getD (lb.toNat + i) 0)).sum) / ((hb - lb : ℤ) : ℚ)

theorem sum_take_eq_range_getD (l : List ℚ) (k : ℕ) (hk : k ≤ l.length) :
    (l.take k).sum = ((List.range k).map (fun i => l.getD i 0)).sum := by
  induction l generalizing k with
  | nil =>
    have : k = 0 := Nat.le_zero.mp (by simpa using hk)
    subst this; simp
  | cons x xs ih =>
    cases k with
    | zero => simp
    | succ k =>
      have hk' : k ≤ xs.length := by simpa using hk
      rw [List.take_succ_cons, List.sum_cons, ih k hk', List.range_succ_eq_map]
      simp [List.map_map, Function.comp_def]

theorem drop_take_sum (l : List ℚ) (a k : ℕ) (h : a + k ≤ l.length) :
    ((l.drop a).take k).sum
      = ((List.range k).map (fun i => l.getD (a + i) 0)).sum := by
  have hk : k ≤ (l.drop a).length := by simp; omega
  rw [sum_take_eq_range_getD _ k hk]
  congr 1
  apply List.map_congr_left
  intro i hi
  have hik : i < k := List.mem_range.mp hi
  have h1 : i < (l.drop a).length := lt_of_lt_of_le hik hk
  have h2 : a + i < l.length := by simp at h1; omega
  rw [List.getD_eq_getElem _ _ h1, List.getD_eq_getElem _ _ h2,
    List.getElem_drop]

/-- C3 counterexample: with six magnitude bins `[0,0,1,0,0,0]`,
`bin_width = 10` and the Hz range `[0, 20]` (so `hi / bin_width = 2`
is an exact integer), the source includes bin 2 (upper bound
`floor + 1 = 3`), giving mean `1/3`, while the spec's
`ceil(hi/bin_width) = 2` bound would give `0`. -/
theorem band_energy_ceil_counterexample :
    band_energy [0, 0, 1, 0, 0, 0] 10 0 20
      ≠ specBandEnergyCeil [0, 0, 1, 0, 0, 0] 10 0 20 := by
  have h3 : Int.toNat 3 = 3 := rfl
  have h2 : Int.toNat 2 = 2 := rfl
  norm_num [band_energy, specBandEnergyCeil, pytrunc, listMean, pyslice,
    h3, h2, List.range_succ, List.take_succ_cons, List.take_zero,
    List.sum_cons, List.sum_nil]

/-- C3 (amended): for every Hz range `[lo, hi]` with `0 ≤ lo ≤ hi` and
positive bin width, the raw band energy equals the average of the
magnitude spectrum over the half-open bin range
`[floor(lo/bin_width), min(floor(hi/bin_width) + 1, num_bins))`
(which is `ceil(hi/bin_width)` only when `hi/bin_width` is not an exact
integer), and equals 0 when that bin range is empty. -/
theorem band_energy_eq_floor_succ (magnitudes : List ℚ) (bin_width lo hi : ℚ)
    (hlo : 0 ≤ lo) (hlohi : lo ≤ hi) (hbw : 0 < bin_width) :
    band_energy magnitudes bin_width lo hi
      = specBandEnergyFloorSucc magnitudes bin_width lo hi := by
  have hhi : 0 ≤ hi := le_trans hlo hlohi
  have hlodiv : 0 ≤ lo / bin_width := div_nonneg hlo hbw.le
  have hhidiv : 0 ≤ hi / bin_width := div_nonneg hhi hbw.le
  unfold band_energy specBandEnergyFloorSucc
  dsimp only
  rw [pytrunc_eq_floor hlodiv, pytrunc_eq_floor hhidiv]
  have hlb0 : (0 : ℤ) ≤ ⌊lo / bin_width⌋ := Int.floor_nonneg.mpr hlodiv
  rw [max_eq_right hlb0]
  set lb := ⌊lo / bin_width⌋ with hlbdef
  set hb := min (⌊hi / bin_width⌋ + 1) (magnitudes.length : ℤ) with hhbdef
  by_cases hcase : hb ≤ lb
  · rw [if_pos hcase, if_pos hcase]
  · rw [if_neg hcase, if_neg hcase]
    have hlbhb : lb < hb := lt_of_not_le hcase
    have hhble : hb ≤ (magnitudes.length : ℤ) := min_le_right _ _
    have hhb0 : (0 : ℤ) ≤ hb := le_trans hlb0 hlbhb.le
    have hlbn : (lb.toNat : ℤ) = lb := Int.toNat_of_nonneg hlb0
    have hhbn : (hb.toNat : ℤ) = hb := Int.toNat_of_nonneg hhb0
    have hlen : hb.toNat ≤ magnitudes.length := by omega
    have hle : lb.toNat ≤ hb.toNat := by omega
    have hkk : hb.toNat - lb.toNat = (hb - lb).toNat := by omega
    unfold listMean pyslice
    have hsum := drop_take_sum magnitudes lb.toNat (hb.toNat - lb.toNat)
      (by omega)
    rw [hsum, hkk]
    have hlength :
        ((magnitudes.drop lb.toNat).take (hb - lb).toNat).length
          = (hb - lb).toNat := by
      simp only [List.length_take, List.length_drop]
      omega
    rw [hlength]
    congr 1
    have : (((hb - lb).toNat : ℤ) : ℚ) = ((hb - lb : ℤ) : ℚ) := by
      congr 1; omega
    exact_mod_cast this

theorem band_energy_eq_floor_succ_witness :
    (0 : ℚ) ≤ 0 ∧ (0 : ℚ) ≤ 20 ∧ (0 : ℚ) < 10 ∧
    band_energy [0, 0, 1, 0, 0, 0] 10 0 20
      = specBandEnergyFloorSucc [0, 0, 1, 0, 0, 0] 10 0 20 :=
  ⟨le_refl 0, by norm_num, by norm_num,
    band_energy_eq_floor_succ [0, 0, 1, 0, 0, 0] 10 0 20
      (le_refl 0) (by norm_num) (by norm_num)⟩

/-- Bounds `0 ≤ min 1 x ≤ 1` whenever `0 ≤ x`. -/
theorem min_one_unit {x : ℚ} (hx : 0 ≤ x) : 0 ≤ min 1 x ∧ min 1 x ≤ 1 :=
  ⟨le_min (by norm_num) hx, min_le_left _ _⟩

/-- The normalization step caps every band at `1/2`: the scale divides by
twice the max energy (or by the epsilon floor when even that is tiny). -/
theorem normalized_le_half {e M : ℚ} (_he : 0 ≤ e) (heM : e ≤ M) :
    min 1 (e * (1 / max (1 / 1000000) (M * 2))) ≤ 1 / 2 := by
  rcases le_or_lt ((1 : ℚ) / 1000000) (M * 2) with hc | hc
  · rw [max_eq_right hc]
    have hM : (0 : ℚ) < M * 2 := lt_of_lt_of_le (by norm_num) hc
    have hstep : e * (1 / (M * 2)) ≤ 1 / 2 := by
      rw [mul_one_div, div_le_iff₀ hM]
      nlinarith
    exact le_trans (min_le_right _ _) hstep
  · rw [max_eq_left hc.le]
    have hstep : e * (1 / ((1 : ℚ) / 1000000)) ≤ 1 / 2 := by nlinarith
    exact le_trans (min_le_right _ _) hstep

/-- C2: for every magnitude spectrum (in particular the empty and the
all-zero one) and all rates/window sizes, every field of the returned
`FrequencyBands` lies in `[0, 1]`, and the normalization divisor
`max(1e-6, 2 * max energy)` is strictly positive, so the division is
always safe. -/
theorem fft_frequency_bands_fields_unit
    (magnitudes : List ℚ) (sample_rate fft_size : ℕ)
    (hm : ∀ x ∈ magnitudes, 0 ≤ x) :
    (0 ≤ (fft_frequency_bands magnitudes sample_rate fft_size).low ∧
      (fft_frequency_bands magnitudes sample_rate fft_size).low ≤ 1) ∧
    (0 ≤ (fft_frequency_bands magnitudes sample_rate fft_size).upper_bass ∧
      (fft_frequency_bands magnitudes sample_rate fft_size).upper_bass ≤ 1) ∧
    (0 ≤ (fft_frequency_bands magnitudes sample_rate fft_size).mid ∧
      (fft_frequency_bands magnitudes sample_rate fft_size).mid ≤ 1) ∧
    (0 ≤ (fft_frequency_bands magnitudes sample_rate fft_size).high ∧
      (fft_frequency_bands magnitudes sample_rate fft_size).high ≤ 1) ∧
    (0 ≤ (fft_frequency_bands magnitudes sample_rate fft_size).overall ∧
      (fft_frequency_bands magnitudes sample_rate fft_size).overall ≤ 1) ∧
    (0 < max ((1 : ℚ) / 1000000)
      (max (band_energy magnitudes ((sample_rate : ℚ) / (fft_size : ℚ)) 20 250)
        (max (band_energy magnitudes ((sample_rate : ℚ) / (fft_size : ℚ)) 60 150)
          (max (band_energy magnitudes ((sample_rate : ℚ) / (fft_size : ℚ)) 250 2000)
            (max (band_energy magnitudes ((sample_rate : ℚ) / (fft_size : ℚ)) 2000 20000)
              (band_energy magnitudes ((sample_rate : ℚ) / (fft_size : ℚ)) 20 20000)))) * 2)) := by
  have hpos : (0 : ℚ) < max ((1 : ℚ) / 1000000)
      (max (band_energy magnitudes ((sample_rate : ℚ) / (fft_size : ℚ)) 20 250)
        (max (band_energy magnitudes ((sample_rate : ℚ) / (fft_size : ℚ)) 60 150)
          (max (band_energy magnitudes ((sample_rate : ℚ) / (fft_size : ℚ)) 250 2000)
            (max (band_energy magnitudes ((sample_rate : ℚ) / (fft_size : ℚ)) 2000 20000)
              (band_energy magnitudes ((sample_rate : ℚ) / (fft_size : ℚ)) 20 20000)))) * 2) :=
    lt_of_lt_of_le (by norm_num) (le_max_left _ _)
  have hscale : (0 : ℚ) ≤ 1 / max ((1 : ℚ) / 1000000)
      (max (band_energy magnitudes ((sample_rate : ℚ) / (fft_size : ℚ)) 20 250)
        (max (band_energy magnitudes ((sample_rate : ℚ) / (fft_size : ℚ)) 60 150)
          (max (band_energy magnitudes ((sample_rate : ℚ) / (fft_size : ℚ)) 250 2000)
            (max (band_energy magnitudes ((sample_rate : ℚ) / (fft_size : ℚ)) 2000 20000)
              (band_energy magnitudes ((sample_rate : ℚ) / (fft_size : ℚ)) 20 20000)))) * 2) :=
    le_of_lt (div_pos one_pos hpos)
  refine ⟨?_, ?_, ?_, ?_, ?_, hpos⟩ <;>
    simp only [fft_frequency_bands] <;>
    exact min_one_unit (mul_nonneg (band_energy_nonneg hm _ _ _) hscale)

theorem fft_frequency_bands_fields_unit_witness :
    (∀ x ∈ [(1 : ℚ), 2, 3], 0 ≤ x) ∧
    (0 ≤ (fft_frequency_bands [1, 2, 3] 100 10).low ∧
      (fft_frequency_bands [1, 2, 3] 100 10).low ≤ 1) := by
  have h := fft_frequency_bands_fields_unit [1, 2, 3] 100 10
    (by norm_num)
  exact ⟨by norm_num, h.1⟩

/-- C10: every normalized field of the returned `FrequencyBands` is in
fact at most `1/2`: each raw energy is bounded by the maximum raw
energy, and the scale `1 / max(1e-6, 2 * max)` caps each normalized
value at `max / (2 * max) = 1/2` (or below `1/2` on the epsilon
branch). -/
theorem fft_frequency_bands_fields_le_half
    (magnitudes : List ℚ) (sample_rate fft_size : ℕ)
    (hm : ∀ x ∈ magnitudes, 0 ≤ x) :
    (fft_frequency_bands magnitudes sample_rate fft_size).low ≤ 1 / 2 ∧
    (fft_frequency_bands magnitudes sample_rate fft_size).upper_bass ≤ 1 / 2 ∧
    (fft_frequency_bands magnitudes sample_rate fft_size).mid ≤ 1 / 2 ∧
    (fft_frequency_bands magnitudes sample_rate fft_size).high ≤ 1 / 2 ∧
    (fft_frequency_bands magnitudes sample_rate fft_size).overall ≤ 1 / 2 := by
  refine ⟨?_, ?_, ?_, ?_, ?_⟩ <;> simp only [fft_frequency_bands]
  · exact normalized_le_half (band_energy_nonneg hm _ _ _) (le_max_left _ _)
  · exact normalized_le_half (band_energy_nonneg hm _ _ _)
      (le_max_of_le_right (le_max_left _ _))
  · exact normalized_le_half (band_energy_nonneg hm _ _ _)
      (le_max_of_le_right (le_max_of_le_right (le_max_left _ _)))
  · exact normalized_le_half (band_energy_nonneg hm _ _ _)
      (le_max_of_le_right (le_max_of_le_right (le_max_of_le_right (le_max_left _ _))))
  · exact normalized_le_half (band_energy_nonneg hm _ _ _)
      (le_max_of_le_right (le_max_of_le_right (le_max_of_le_right (le_max_right _ _))))

theorem fft_frequency_bands_fields_le_half_witness :
    (∀ x ∈ [(1 : ℚ), 2, 3], 0 ≤ x) ∧
    (fft_frequency_bands [1, 2, 3] 100 10).low ≤ 1 / 2 := by
  have h := fft_frequency_bands_fields_le_half [1, 2, 3] 100 10
    (by norm_num)
  exact ⟨by norm_num, h.1⟩

/-! ## Color mapper (`src/audio_engine.py`) -/

/-- Embeds `energy_to_hue`: `(base_hue + energy * 0.7) % 1.0`. -/
def energy_to_hue (energy base_hue : ℚ) : ℚ :=
  pymod (base_hue + energy * 0.7) 1

/-- Embeds `rgb_to_hue`: 0 for achromatic input, otherwise the standard
piecewise max-channel formula, wrapped by `(h / 6) % 1.0`. -/
def rgb_to_hue (r g b : ℚ) : ℚ :=
  let mx := max r (max g b)
  let mn := min r (min g b)
  if mx = mn then 0
  else
    let d := mx - mn
    let h : ℚ :=
      if mx = r then (g - b) / d + (if g < b then 6 else 0)
      else if mx = g then (b - r) / d + 2
      else (r - g) / d + 4
    pymod (h / 6) 1

/-- Embeds `hue_to_rgb` (HSV to RGB): `i = int(hue*6) % 6`,
`f = hue*6 - int(hue*6)`, and the six-sector table lookup. The `getD`
default is unreachable because `i ∈ [0, 6)`. -/
def hue_to_rgb (hue saturation value : ℚ) : ℚ × ℚ × ℚ :=
  let h := hue * 6
  let i : ℤ := pytrunc h % 6
  let f : ℚ := h - (pytrunc h : ℚ)
  let p := value * (1 - saturation)
  let q := value * (1 - saturation * f)
  let t := value * (1 - saturation * (1 - f))
  [(value, t, p), (q, value, p), (p, value, t),
   (p, q, value), (t, p, value), (value, p, q)].getD i.toNat (0, 0, 0)

/-- Embeds `energy_to_color`: hue from `energy_to_hue`, saturation `0.85`,
value `0.35 + 0.65 * energy`. -/
def energy_to_color (energy base_hue : ℚ) : ℚ × ℚ × ℚ :=
  hue_to_rgb (energy_to_hue energy base_hue) 0.85 (0.35 + 0.65 * energy)

/-- Embeds `bands_to_hue`: weighted low/mid/high blend with epsilon in the
total, wrapped mod 1. -/
def bands_to_hue (bands : FrequencyBands) : ℚ :=
  let low_w := bands.low
  let mid_w := bands.mid
  let high_w := bands.high
  let total := low_w + mid_w + high_w + 1 / 1000000
  pymod ((0 * low_w + 0.33 * mid_w + 0.66 * high_w) / total) 1

theorem rgb_to_hue_on_r1 (x : ℚ) (h0 : 0 ≤ x) (h1 : x < 1) :
    rgb_to_hue 1 x 0 = x / 6 := by
  unfold rgb_to_hue
  dsimp only
  have hmx : max (1 : ℚ) (max x 0) = 1 := by
    rw [max_eq_left h0, max_eq_left h1.le]
  have hmn : min (1 : ℚ) (min x 0) = 0 := by
    rw [min_eq_right h0, min_eq_right zero_le_one]
  rw [hmx, hmn, if_neg (by norm_num : (1 : ℚ) ≠ 0), if_pos rfl,
    if_neg (not_lt.mpr h0)]
  have harg : ((x - 0) / (1 - 0) + 0) / 6 = x / 6 := by ring
  rw [harg]
  exact pymod_eq_self (by positivity) (by linarith)

theorem rgb_to_hue_on_g1_left (x : ℚ) (h0 : 0 ≤ x) (h1 : x ≤ 1) :
    rgb_to_hue x 1 0 = (2 - x) / 6 := by
  rcases eq_or_lt_of_le h1 with heq | hlt
  · subst heq
    unfold rgb_to_hue
    dsimp only
    rw [max_eq_left zero_le_one, max_eq_left le_rfl,
      min_eq_right zero_le_one, min_eq_right zero_le_one,
      if_neg (by norm_num : (1 : ℚ) ≠ 0), if_pos rfl,
      if_neg (by norm_num : ¬(1 : ℚ) < 0)]
    have harg : (((1 : ℚ) - 0) / (1 - 0) + 0) / 6 = 1 / 6 := by norm_num
    rw [harg, pymod_eq_self (by norm_num) (by norm_num)]
    norm_num
  · unfold rgb_to_hue
    dsimp only
    have hmx : max x (max (1 : ℚ) 0) = 1 := by
      rw [max_eq_left zero_le_one, max_eq_right h1]
    have hmn : min x (min (1 : ℚ) 0) = 0 := by
      rw [min_eq_right zero_le_one, min_eq_right h0]
    rw [hmx, hmn, if_neg (by norm_num : (1 : ℚ) ≠ 0),
      if_neg (ne_of_gt hlt), if_pos rfl]
    have harg : ((0 - x) / ((1 : ℚ) - 0) + 2) / 6 = (2 - x) / 6 := by ring
    rw [harg]
    exact pymod_eq_self (by linarith) (by linarith)

theorem rgb_to_hue_on_g1_right (x : ℚ) (h0 : 0 ≤ x) (h1 : x < 1) :
    rgb_to_hue 0 1 x = (2 + x) / 6 := by
  unfold rgb_to_hue
  dsimp only
  have hmx : max (0 : ℚ) (max 1 x) = 1 := by
    rw [max_eq_left h1.le, max_eq_right zero_le_one]
  have hmn : min (0 : ℚ) (min 1 x) = 0 := by
    rw [min_eq_right h1.le, min_eq_left h0]
  rw [hmx, hmn, if_neg (by norm_num : (1 : ℚ) ≠ 0),
    if_neg (by norm_num : (1 : ℚ) ≠ 0), if_pos rfl]
  have harg : ((x - 0) / ((1 : ℚ) - 0) + 2) / 6 = (2 + x) / 6 := by ring
  rw [harg]
  exact pymod_eq_self (by linarith) (by linarith)

theorem rgb_to_hue_on_b1_left (x : ℚ) (h0 : 0 ≤ x) (h1 : x ≤ 1) :
    rgb_to_hue 0 x 1 = (4 - x) / 6 := by
  rcases eq_or_lt_of_le h1 with heq | hlt
  · subst heq
    unfold rgb_to_hue
    dsimp only
    rw [max_eq_left le_rfl, max_eq_right zero_le_one,
      min_eq_left le_rfl, min_eq_left zero_le_one,
      if_neg (by norm_num : (1 : ℚ) ≠ 0),
      if_neg (by norm_num : (1 : ℚ) ≠ 0), if_pos rfl]
    have harg : (((1 : ℚ) - 0) / (1 - 0) + 2) / 6 = 3 / 6 := by norm_num
    rw [harg, pymod_eq_self (by norm_num) (by norm_num)]
    norm_num
  · unfold rgb_to_hue
    dsimp only
    have hmx : max (0 : ℚ) (max x 1) = 1 := by
      rw [max_eq_right hlt.le, max_eq_right zero_le_one]
    have hmn : min (0 : ℚ) (min x 1) = 0 := by
      rw [min_eq_left hlt.le, min_eq_left h0]
    rw [hmx, hmn, if_neg (by norm_num : (1 : ℚ) ≠ 0),
      if_neg (by norm_num : (1 : ℚ) ≠ 0), if_neg (ne_of_gt hlt)]
    have harg : ((0 - x) / ((1 : ℚ) - 0) + 4) / 6 = (4 - x) / 6 := by ring
    rw [harg]
    exact pymod_eq_self (by linarith) (by linarith)

theorem rgb_to_hue_on_b1_right (x : ℚ) (h0 : 0 ≤ x) (h1 : x < 1) :
    rgb_to_hue x 0 1 = (4 + x) / 6 := by
  unfold rgb_to_hue
  dsimp only
  have hmx : max x (max (0 : ℚ) 1) = 1 := by
    rw [max_eq_right zero_le_one, max_eq_right h1.le]
  have hmn : min x (min (0 : ℚ) 1) = 0 := by
    rw [min_eq_left zero_le_one, min_eq_right h0]
  rw [hmx, hmn, if_neg (by norm_num : (1 : ℚ) ≠ 0),
    if_neg (ne_of_gt h1), if_neg (by norm_num : ¬(1 : ℚ) = 0)]
  have harg : ((x - 0) / ((1 : ℚ) - 0) + 4) / 6 = (4 + x) / 6 := by ring
  rw [harg]
  exact pymod_eq_self (by linarith) (by linarith)

theorem rgb_to_hue_on_r1_right (x : ℚ) (h0 : 0 < x) (h1 : x ≤ 1) :
    rgb_to_hue 1 0 x = (6 - x) / 6 := by
  unfold rgb_to_hue
  dsimp only
  have hmx : max (1 : ℚ) (max 0 x) = 1 := by
    rw [max_eq_right h0.le, max_eq_left h1]
  have hmn : min (1 : ℚ) (min 0 x) = 0 := by
    rw [min_eq_left h0.le, min_eq_right zero_le_one]
  rw [hmx, hmn, if_neg (by norm_num : (1 : ℚ) ≠ 0), if_pos rfl, if_pos h0]
  have harg : ((0 - x) / ((1 : ℚ) - 0) + 6) / 6 = (6 - x) / 6 := by ring
  rw [harg]
  exact pymod_eq_self (by linarith) (by linarith)

/-- C9: `rgb_to_hue` inverts `hue_to_rgb` on chromatic colors: for every
hue in `[0, 1)`, converting to RGB at saturation 1 and value 1 and back
returns exactly the hue; and achromatic input (max channel = min
channel) maps to hue 0. -/
theorem rgb_to_hue_hue_to_rgb (h : ℚ) (h0 : 0 ≤ h) (h1 : h < 1) :
    rgb_to_hue (hue_to_rgb h 1 1).1 (hue_to_rgb h 1 1).2.1
        (hue_to_rgb h 1 1).2.2 = h ∧
    (∀ r g b : ℚ, max r (max g b) = min r (min g b) → rgb_to_hue r g b = 0) := by
  constructor
  · have h60 : (0 : ℚ) ≤ h * 6 := by linarith
    have h66 : h * 6 < 6 := by linarith
    obtain ⟨n, hn⟩ : ∃ n : ℤ, n = ⌊h * 6⌋ := ⟨⌊h * 6⌋, rfl⟩
    have hlb : 0 ≤ n := hn ▸ Int.floor_nonneg.mpr h60
    have hub : n ≤ 5 := by
      rw [hn]
      have : ⌊h * 6⌋ < 6 := Int.floor_lt.mpr (by exact_mod_cast h66)
      omega
    have hble : (n : ℚ) ≤ h * 6 := hn ▸ Int.floor_le _
    have hblt : h * 6 < (n : ℚ) + 1 := hn ▸ Int.lt_floor_add_one _
    have htup : hue_to_rgb h 1 1
        = [((1 : ℚ), h * 6 - n, 0), (1 - (h * 6 - n), 1, 0),
           (0, 1, h * 6 - n), (0, 1 - (h * 6 - n), 1),
           (h * 6 - n, 0, 1), (1, 0, 1 - (h * 6 - n))].getD
            (n % 6).toNat (0, 0, 0) := by
      unfold hue_to_rgb
      dsimp only
      rw [pytrunc_eq_floor h60, ← hn]
      congr 2 <;> push_cast <;> ring
    have hf0 : 0 ≤ h * 6 - n := by linarith
    have hf1 : h * 6 - n < 1 := by linarith
    interval_cases n
    · have hsel : hue_to_rgb h 1 1
          = ((1 : ℚ), h * 6 - (((0 : ℤ) : ℚ)), (0 : ℚ)) := by
        rw [htup]; rfl
      rw [hsel]
      push_cast at hf0 hf1 ⊢
      rw [rgb_to_hue_on_r1 _ (by linarith) (by linarith)]
      linarith
    · have hsel : hue_to_rgb h 1 1
          = ((1 : ℚ) - (h * 6 - (((1 : ℤ) : ℚ))), (1 : ℚ), (0 : ℚ)) := by
        rw [htup]; rfl
      rw [hsel]
      push_cast at hf0 hf1 ⊢
      rw [rgb_to_hue_on_g1_left _ (by linarith) (by linarith)]
      linarith
    · have hsel : hue_to_rgb h 1 1
          = ((0 : ℚ), (1 : ℚ), h * 6 - (((2 : ℤ) : ℚ))) := by
        rw [htup]; rfl
      rw [hsel]
      push_cast at hf0 hf1 ⊢
      rw [rgb_to_hue_on_g1_right _ (by linarith) (by linarith)]
      linarith
    · have hsel : hue_to_rgb h 1 1
          = ((0 : ℚ), (1 : ℚ) - (h * 6 - (((3 : ℤ) : ℚ))), (1 : ℚ)) := by
        rw [htup]; rfl
      rw [hsel]
      push_cast at hf0 hf1 ⊢
      rw [rgb_to_hue_on_b1_left _ (by linarith) (by linarith)]
      linarith
    · have hsel : hue_to_rgb h 1 1
          = (h * 6 - (((4 : ℤ) : ℚ)), (0 : ℚ), (1 : ℚ)) := by
        rw [htup]; rfl
      rw [hsel]
      push_cast at hf0 hf1 ⊢
      rw [rgb_to_hue_on_b1_right _ (by linarith) (by linarith)]
      linarith
    · have hsel : hue_to_rgb h 1 1
          = ((1 : ℚ), (0 : ℚ), (1 : ℚ) - (h * 6 - (((5 : ℤ) : ℚ)))) := by
        rw [htup]; rfl
      rw [hsel]
      push_cast at hf0 hf1 ⊢
      rw [rgb_to_hue_on_r1_right _ (by linarith) (by linarith)]
      linarith
  · intro r g b hach
    unfold rgb_to_hue
    dsimp only
    rw [if_pos hach]

theorem rgb_to_hue_hue_to_rgb_witness :
    (0 : ℚ) ≤ 1 / 3 ∧ (1 : ℚ) / 3 < 1 ∧
    (rgb_to_hue (hue_to_rgb (1 / 3) 1 1).1 (hue_to_rgb (1 / 3) 1 1).2.1
        (hue_to_rgb (1 / 3) 1 1).2.2 = 1 / 3 ∧
      (∀ r g b : ℚ, max r (max g b) = min r (min g b) → rgb_to_hue r g b = 0)) :=
  ⟨by norm_num, by norm_num,
    rgb_to_hue_hue_to_rgb (1 / 3) (by norm_num) (by norm_num)⟩

/-! ## Layout model (`src/light_layout.py`) -/

/-- Spatial zones for light placement. -/
inductive Zone where
  | left | right | front | back | top | bottom
deriving Repr, DecidableEq

/-- The enum's `.value` string. -/
def Zone.value : Zone → String
  | .left => "left"
  | .right => "right"
  | .front => "front"
  | .back => "back"
  | .top => "top"
  | .bottom => "bottom"

/-- Single light with zone and index (the `LightDescriptor` dataclass). -/
structure LightDescriptor where
  global_index : ℕ
  zone : Zone
  zone_index : ℕ
  zone_count : ℕ
deriving Repr, DecidableEq

/-- Zone counts (the `LightLayout` dataclass). -/
structure LightLayout where
  left : ℕ
  right : ℕ
  front : ℕ
  back : ℕ
  top : ℕ
  bottom : ℕ
deriving Repr, DecidableEq

def LightLayout.total_lights (L : LightLayout) : ℕ :=
  L.left + L.right + L.front + L.back + L.top + L.bottom

/-- The descriptors one zone contributes to `iter_lights`, starting at
global index `start`. -/
def zoneLights (zone : Zone) (count start : ℕ) : List LightDescriptor :=
  (List.range count).map (fun zi => ⟨start + zi, zone, zi, count⟩)

/-- Embeds `iter_lights`: zones enumerated left, right, front, back, top,
bottom, global indices strictly increasing from 0. -/
def LightLayout.iter_lights (L : LightLayout) : List LightDescriptor :=
  zoneLights Zone.left L.left 0 ++
  zoneLights Zone.right L.right L.left ++
  zoneLights Zone.front L.front (L.left + L.right) ++
  zoneLights Zone.back L.back (L.left + L.right + L.front) ++
  zoneLights Zone.top L.top (L.left + L.right + L.front + L.back) ++
  zoneLights Zone.bottom L.bottom (L.left + L.right + L.front + L.back + L.top)

theorem iter_lights_length (L : LightLayout) :
    L.iter_lights.length = L.total_lights := by
  simp [LightLayout.iter_lights, LightLayout.total_lights, zoneLights]
  omega

/-! ## Pattern engine (`src/pattern_engine.py`) -/

/-- The 18 pattern variants. -/
inductive Pattern where
  | chase | chase_reverse | swirl | front_to_back | back_to_front
  | left_off | right_off | left_right_alt | center_out | upper_bass
  | bass_flood | treble_hue | band_split | music_color | breathing
  | all_on | zone_mix | beat_hue
deriving Repr, DecidableEq

/-- The `Pattern(str)` construction: the enum's string values; `none` models
the `ValueError` branch. -/
def patternOfString : String → Option Pattern
  | "chase" => some .chase
  | "chase_reverse" => some .chase_reverse
  | "swirl" => some .swirl
  | "front_to_back" => some .front_to_back
  | "back_to_front" => some .back_to_front
  | "left_off" => some .left_off
  | "right_off" => some .right_off
  | "left_right_alt" => some .left_right_alt
  | "center_out" => some .center_out
  | "upper_bass" => some .upper_bass
  | "bass_flood" => some .bass_flood
  | "treble_hue" => some .treble_hue
  | "band_split" => some .band_split
  | "music_color" => some .music_color
  | "breathing" => some .breathing
  | "all_on" => some .all_on
  | "zone_mix" => some .zone_mix
  | "beat_hue" => some .beat_hue
  | _ => none

/-- Per-light state (the `LightState` dataclass). -/
structure LightState where
  r : ℚ
  g : ℚ
  b : ℚ
  intensity : ℚ
  rotation_y : Option ℚ
deriving Repr, DecidableEq

/-- Engine configuration from `PatternEngine.__init__` parameters.
Zone-mix sets are association lists from zone-name strings to
pattern-name strings (Python dicts with unique keys). -/
structure EngineConfig where
  chase_tail : ℕ
  rotation_enabled : Bool
  rotation_speed : ℚ
  rotation_audio_boost : Bool
  zone_mix_sets : List (List (String × String))
  zone_cycle_seconds : ℚ

/-- The four `DEFAULT_ZONE_MIX_SETS`. -/
def DEFAULT_ZONE_MIX_SETS : List (List (String × String)) :=
  [[("top", "chase"), ("left", "left_off"), ("right", "right_off"),
    ("front", "bass_flood"), ("back", "center_out"), ("bottom", "bass_flood")],
   [("top", "center_out"), ("left", "chase"), ("right", "chase"),
    ("front", "left_right_alt"), ("back", "music_color"), ("bottom", "music_color")],
   [("top", "swirl"), ("left", "bass_flood"), ("right", "bass_flood"),
    ("front", "center_out"), ("back", "left_off"), ("bottom", "left_right_alt")],
   [("top", "music_color"), ("left", "left_right_alt"), ("right", "left_right_alt"),
    ("front", "chase"), ("back", "right_off"), ("bottom", "center_out")]]

/-- The engine's mutable beat-detection state: `_prev_bass`, `_beat_hue`,
`_last_beat_time` (elapsed seconds since the start instant). -/
structure EngineState where
  prev_bass : ℚ
  beat_hue : ℚ
  last_beat_time : ℚ
deriving Repr, DecidableEq

/-- State right after `__init__`. -/
def initEngineState : EngineState := ⟨0, 0, 0⟩

/-- Oracle standing for the transcendental float functions `math.sin` and
`math.pi`, which only the breathing intensity and the rotation angle
consume. -/
structure MathOracle where
  sin : ℚ → ℚ
  pi : ℚ

/-- Embeds `_detect_beat` with elapsed time `t` passed explicitly: a beat
fires when the bass rise exceeds 0.25, at least 0.15 s (the cooldown)
have passed since `last_beat_time`, and bass exceeds 0.3.  `prev_bass`
is updated every call; `last_beat_time` only on fire. -/
def detect_beat (bands : Option FrequencyBands) (t : ℚ) (s : EngineState) :
    Bool × EngineState :=
  match bands with
  | none => (false, s)
  | some b =>
    let bass := b.upper_bass
    let rise := bass - s.prev_bass
    let s' := { s with prev_bass := bass }
    if rise > 0.25 ∧ t - s.last_beat_time ≥ 0.15 ∧ bass > 0.3 then
      (true, { s' with last_beat_time := t })
    else
      (false, s')

/-- Embeds `_chase_intensity` (`n` is `layout.total_lights()`). -/
def chase_intensity (n : ℕ) (ld : LightDescriptor) (phase : ℚ)
    (tail_len : ℕ) (reverse : Bool) : ℚ :=
  if n = 0 then 0
  else
    let phase := if reverse then 1 - phase else phase
    let head_pos := phase * n
    let dist := pymod ((ld.global_index : ℚ) - head_pos + n) n
    if dist ≤ (tail_len : ℚ) then 1 - dist / ((tail_len : ℚ) + 1) else 0

/-- Position of a zone in `_front_to_back_intensity`'s `zone_order` list
(the `.index` call never raises, so the `except` branch is dead). -/
def zoneOrderIndex : Zone → ℕ
  | .front => 0
  | .left => 1
  | .right => 2
  | .back => 3
  | .top => 4
  | .bottom => 5

/-- Embeds `_front_to_back_intensity`. -/
def front_to_back_intensity (ld : LightDescriptor) (phase : ℚ)
    (reverse : Bool) : ℚ :=
  let phase := if reverse then 1 - phase else phase
  let zone_phase : ℚ := (zoneOrderIndex ld.zone : ℚ) / 6
  let within_zone : ℚ := (ld.zone_index : ℚ) / ((max 1 ld.zone_count : ℕ) : ℚ)
  let wave_pos := pymod (zone_phase * 0.5 + within_zone * 0.5) 1
  let dist := |wave_pos - phase|
  let dist := if dist > 0.5 then 1 - dist else dist
  max 0 (1 - dist * 3)

/-- Embeds `_left_off_intensity`. -/
def left_off_intensity (ld : LightDescriptor) : ℚ :=
  if ld.zone = Zone.left then 0 else 1

/-- Embeds `_right_off_intensity`. -/
def right_off_intensity (ld : LightDescriptor) : ℚ :=
  if ld.zone = Zone.right then 0 else 1

/-- Embeds `_left_right_alt_intensity`. -/
def left_right_alt_intensity (ld : LightDescriptor) (phase : ℚ)
    (bands : Option FrequencyBands) : ℚ :=
  if ld.zone = Zone.left then (if phase < 0.5 then 1 else 0)
  else if ld.zone = Zone.right then (if phase < 0.5 then 0 else 1)
  else
    let mid : ℚ := (ld.zone_count : ℚ) / 2
    let base : ℚ :=
      if (ld.zone_index : ℚ) < mid then (if phase < 0.5 then 1 else 0)
      else (if phase < 0.5 then 0 else 1)
    match bands with
    | some b => base * (0.4 + 0.6 * b.overall)
    | none => base

/-- Embeds `_center_out_intensity`. -/
def center_out_intensity (ld : LightDescriptor) (phase : ℚ)
    (bands : Option FrequencyBands) : ℚ :=
  if ld.zone_count = 0 then 0
  else
    let center : ℚ := ((ld.zone_count : ℚ) - 1) / 2
    let dist_from_center := |(ld.zone_index : ℚ) - center|
    let max_radius := center + 0.5
    let min_radius : ℚ := 0.5
    let phase :=
      match bands with
      | some b => pymod (phase * 0.7 + 0.3 * b.upper_bass) 1
      | none => phase
    let lit_radius := min_radius + phase * (max_radius - min_radius)
    if dist_from_center ≤ lit_radius then
      max 0 (1 - dist_from_center / max lit_radius 0.01 * 0.3)
    else 0

/-- Embeds `_swirl_intensity`. -/
def swirl_intensity (n : ℕ) (ld : LightDescriptor) (phase : ℚ)
    (tail_len : ℕ) (bands : Option FrequencyBands) : ℚ :=
  if n = 0 then 0
  else
    let phase : ℚ :=
      match bands with
      | some b => pymod (phase * (0.7 + 0.6 * b.upper_bass)) 1
      | none => phase
    let head_pos := phase * n
    let dist := pymod ((ld.global_index : ℚ) - head_pos + n) n
    if dist ≤ (tail_len : ℚ) then 1 - dist / ((tail_len : ℚ) + 1) else 0

/-- Embeds `_breathing_state` (breath rate fixed at its default 0.35 by
the only call site): pulsing intensity from the sine oracle and a
slowly drifting hue at saturation 0.85, value 0.9. -/
def breathing_state (O : MathOracle) (base_color : ℚ × ℚ × ℚ) (t : ℚ) :
    (ℚ × ℚ × ℚ) × ℚ :=
  let breath := 0.4 + 0.6 * (0.5 + 0.5 * O.sin (t * 2 * O.pi * 0.35))
  let hue_shift := pymod (t * 0.12) 1
  let base_hue := rgb_to_hue base_color.1 base_color.2.1 base_color.2.2
  let hue := pymod (base_hue + hue_shift) 1
  (hue_to_rgb hue 0.85 0.9, breath)

/-- Embeds `_rotation_y`: `none` when rotation is disabled, otherwise
`radians((t * deg_per_sec) % 360)` with the optional low-band boost. -/
def rotationY (cfg : EngineConfig) (O : MathOracle)
    (bands : Option FrequencyBands) (t : ℚ) : Option ℚ :=
  if cfg.rotation_enabled = false then none
  else
    let deg_per_sec :=
      if cfg.rotation_audio_boost then
        match bands with
        | some b => cfg.rotation_speed * (0.7 + 0.6 * b.low)
        | none => cfg.rotation_speed
      else cfg.rotation_speed
    let angle_deg := pymod (t * deg_per_sec) 360
    some (angle_deg * O.pi / 180)

/-- For `ZONE_MIX` frames: resolve the fixture's effective pattern from
the selected zone set, defaulting the lookup to "bass_flood" and
falling back to `bass_flood` when the name is not a pattern
(`except ValueError`).  Other patterns resolve to themselves. -/
def resolvePattern (pattern : Pattern) (zone_set : List (String × String))
    (ld : LightDescriptor) : Pattern :=
  if pattern = Pattern.zone_mix then
    (patternOfString ((zone_set.lookup ld.zone.value).getD "bass_flood")).getD
      Pattern.bass_flood
  else pattern

/-- The `no_bass_boost` tuple of `compute`: patterns exempt from the
bass-boost post-processing. -/
def no_bass_boost : List Pattern :=
  [.left_off, .right_off, .left_right_alt, .center_out, .upper_bass,
   .bass_flood, .band_split, .beat_hue]

/-- The per-pattern `if p == ...` chain of `compute`: produces this
fixture's raw intensity, color, and the advanced engine state.
`color0` is the default rainbow-spread music color computed above the
chain; patterns without a branch (breathing or zone_mix reached via a
zone-mix entry) fall through with intensity 0 and the default color,
exactly as the source chain does. -/
def patternBranch (cfg : EngineConfig) (n : ℕ) (p : Pattern)
    (bands : Option FrequencyBands) (t phase time_hue : ℚ)
    (color0 : ℚ × ℚ × ℚ) (light_hue_offset : ℚ)
    (ld : LightDescriptor) (s : EngineState) :
    ℚ × (ℚ × ℚ × ℚ) × EngineState :=
  match p with
  | .chase => (chase_intensity n ld phase cfg.chase_tail false, color0, s)
  | .chase_reverse => (chase_intensity n ld phase cfg.chase_tail true, color0, s)
  | .front_to_back => (front_to_back_intensity ld phase false, color0, s)
  | .back_to_front => (front_to_back_intensity ld phase true, color0, s)
  | .left_off => (left_off_intensity ld, color0, s)
  | .right_off => (right_off_intensity ld, color0, s)
  | .left_right_alt => (left_right_alt_intensity ld phase bands, color0, s)
  | .center_out => (center_out_intensity ld phase bands, color0, s)
  | .swirl => (swirl_intensity n ld phase cfg.chase_tail bands, color0, s)
  | .upper_bass =>
    (0.3 + 0.7 * (match bands with | some b => b.upper_bass | none => 0.5),
      color0, s)
  | .bass_flood =>
    (0.2 + 0.8 * (match bands with | some b => b.low | none => 0.5), color0, s)
  | .treble_hue =>
    let hue := match bands with | some b => bands_to_hue b | none => time_hue
    let color := energy_to_color 1 (pymod (hue + light_hue_offset) 1)
    (0.5 + 0.5 * (match bands with | some b => b.overall | none => 0.5),
      color, s)
  | .band_split =>
    let hue := match bands with | some b => bands_to_hue b | none => time_hue
    let color := energy_to_color 0.8 (pymod (hue + light_hue_offset) 1)
    (0.3 + 0.7 * (match bands with | some b => b.low | none => 0.5), color, s)
  | .music_color =>
    (0.5 + 0.5 * (match bands with | some b => b.overall | none => 0.5),
      color0, s)
  | .all_on => (1, color0, s)
  | .beat_hue =>
    let r := detect_beat bands t s
    let s2 :=
      if r.1 then { r.2 with beat_hue := pymod (r.2.beat_hue + 0.2) 1 }
      else r.2
    let hue := pymod (s2.beat_hue + light_hue_offset * 0.5) 1
    let color := energy_to_color 0.9 hue
    (0.3 + 0.7 * (match bands with | some b => b.low | none => 0.5), color, s2)
  | .breathing => (0, color0, s)
  | .zone_mix => (0, color0, s)

/-- One iteration of `compute`'s per-fixture loop: resolve the pattern
(for zone-mix), run the branch chain, then apply the bass-boost
post-processing to the intensity unless the resolved pattern is exempt
or bands are absent. -/
def computeLight (cfg : EngineConfig) (n : ℕ) (pattern : Pattern)
    (zone_set : List (String × String)) (bands : Option FrequencyBands)
    (t phase time_hue base_hue : ℚ) (rotation_y : Option ℚ)
    (ld : LightDescriptor) (s : EngineState) : LightState × EngineState :=
  let light_hue_offset := ((ld.global_index : ℚ) / ((max n 1 : ℕ) : ℚ)) * 0.2
  let base_hue_adj := pymod (base_hue + light_hue_offset) 1
  let color0 :=
    energy_to_color (match bands with | some b => b.mid | none => 0.6)
      base_hue_adj
  let p := resolvePattern pattern zone_set ld
  let r := patternBranch cfg n p bands t phase time_hue color0
    light_hue_offset ld s
  let intensity :=
    match bands with
    | some b =>
      if p ∈ no_bass_boost then r.1 else min 1 (r.1 * (0.7 + 0.3 * b.low))
    | none => r.1
  (⟨r.2.1.1, r.2.1.2.1, r.2.1.2.2, intensity, rotation_y⟩, r.2.2)

/-- State-threading traversal of the fixture list (the `for ld in
self.layout.iter_lights()` loop collecting `states`). -/
def mapState (f : LightDescriptor → EngineState → LightState × EngineState) :
    List LightDescriptor → EngineState → List LightState × EngineState
  | [], s => ([], s)
  | ld :: rest, s =>
    let r := f ld s
    let rest' := mapState f rest r.2
    (r.1 :: rest'.1, rest'.2)

theorem mapState_length
    (f : LightDescriptor → EngineState → LightState × EngineState)
    (lds : List LightDescriptor) (s : EngineState) :
    (mapState f lds s).1.length = lds.length := by
  induction lds generalizing s with
  | nil => rfl
  | cons ld rest ih => simp [mapState, ih]

/-- Embeds `PatternEngine.compute` with elapsed time `t` explicit (the
source reads the clock; the spec's design note makes time a
parameter).  Returns the light states and the advanced beat state. -/
def compute (cfg : EngineConfig) (O : MathOracle) (layout : LightLayout)
    (pattern : Pattern) (bands : Option FrequencyBands) (t : ℚ)
    (s : EngineState) : List LightState × EngineState :=
  let phase := pymod (t * 1) 1
  let n := layout.total_lights
  if n = 0 then ([], s)
  else
    let time_hue := pymod (t * 0.08) 1
    let bh :=
      match bands with
      | some b =>
        let base_hue := pymod (bands_to_hue b * 0.6 + time_hue * 0.4) 1
        (base_hue, energy_to_color b.mid base_hue)
      | none => (time_hue, energy_to_color 0.6 time_hue)
    let rotation_y := rotationY cfg O bands t
    if pattern = Pattern.breathing then
      let br := breathing_state O bh.2 t
      (layout.iter_lights.map
        (fun _ => ⟨br.1.1, br.1.2.1, br.1.2.2, br.2, rotation_y⟩), s)
    else
      let zone_set :=
        if pattern = Pattern.zone_mix then
          let set_idx : ℤ :=
            pytrunc (t / cfg.zone_cycle_seconds)
              % ((max 1 cfg.zone_mix_sets.length : ℕ) : ℤ)
          cfg.zone_mix_sets.getD set_idx.toNat []
        else []
      mapState
        (computeLight cfg n pattern zone_set bands t phase time_hue bh.1
          rotation_y)
        layout.iter_lights s

/-- C1: for every pattern (all 18 variants), every layout, every elapsed
time, every engine state and configuration, and every bands input
(present or absent), `compute` returns exactly `total_lights` light
states — it traverses `iter_lights` in order and is total, so absent
bands are never an error. -/
theorem compute_length (cfg : EngineConfig) (O : MathOracle)
    (layout : LightLayout) (pattern : Pattern)
    (bands : Option FrequencyBands) (t : ℚ) (s : EngineState) :
    (compute cfg O layout pattern bands t s).1.length
      = layout.total_lights := by
  unfold compute
  dsimp only
  by_cases hn : layout.total_lights = 0
  · rw [if_pos hn, hn]; rfl
  · rw [if_neg hn]
    by_cases hp : pattern = Pattern.breathing
    · rw [if_pos hp]
      simp [iter_lights_length]
    · rw [if_neg hp]
      rw [mapState_length, iter_lights_length]

/-! ### Beat detector trace (C4) -/

/-- Bands carrying a given upper-bass value (the only field the detector
reads). -/
def bandsWithBass (bass : ℚ) : FrequencyBands := ⟨0, bass, 0, 0, 0⟩

/-- One `BEAT_HUE` frame's beat handling: detect, and on fire advance the
accumulated hue by 0.2 mod 1 (the `compute` lines under
`p == Pattern.BEAT_HUE`). -/
def beatStep (bass t : ℚ) (s : EngineState) : Bool × EngineState :=
  let r := detect_beat (some (bandsWithBass bass)) t s
  (r.1, if r.1 then { r.2 with beat_hue := pymod (r.2.beat_hue + 0.2) 1 }
    else r.2)

/-- Feed a `(bass, elapsed time)` trace through the detector,
collecting the fire flags. -/
def runBeats : List (ℚ × ℚ) → EngineState → List Bool × EngineState
  | [], s => ([], s)
  | (bass, t) :: rest, s =>
    let r := beatStep bass t s
    let rest' := runBeats rest r.2
    (r.1 :: rest'.1, rest'.2)

/-- C4 counterexample: from a freshly constructed engine
(`last_beat_time = 0`), feeding bass `[0.1, 0.1, 0.4, 0.1, 0.45]` at
times `[0, 0.05, 0.10, 0.12, 0.20]` does NOT fire a beat at `t = 0.10`
(third sample): the rise 0.3 and bass 0.4 pass their thresholds, but
only 0.10 s < 0.15 s have elapsed since the initial last-beat
timestamp 0, so the cooldown conjunct fails. -/
theorem beat_trace_counterexample :
    (runBeats [(0.1, 0), (0.1, 0.05), (0.4, 0.10), (0.1, 0.12),
      (0.45, 0.20)] initEngineState).1.getD 2 true = false := by
  norm_num [runBeats, beatStep, detect_beat, bandsWithBass, initEngineState,
    pymod]

/-- C4 (amended): on that trace, no beat fires at `t = 0.10` (cooldown
measured from the initial timestamp 0 has not elapsed) nor at
`t = 0.12` (falling bass), and the only beat fires at `t = 0.20`,
where the rise 0.35 > 0.25, the elapsed 0.20 s ≥ 0.15 s, and bass
0.45 > 0.3 all hold; that beat advances the accumulated hue by 0.2
mod 1 and records the timestamp. -/
theorem beat_trace_amended :
    runBeats [(0.1, 0), (0.1, 0.05), (0.4, 0.10), (0.1, 0.12),
        (0.45, 0.20)] initEngineState
      = ([false, false, false, false, true], ⟨0.45, 0.2, 0.2⟩) := by
  norm_num [runBeats, beatStep, detect_beat, bandsWithBass, initEngineState,
    pymod]

/-! ### Bass-boost post-processing (C5) -/

/-- C5: in the per-fixture loop with bands present, a resolved pattern
outside the `no_bass_boost` set gets its raw branch intensity scaled by
`0.7 + 0.3 * low` and clamped at 1; a pattern inside the set keeps its
raw branch intensity unchanged. -/
theorem bass_boost_postprocessing (cfg : EngineConfig) (n : ℕ)
    (pattern : Pattern) (zone_set : List (String × String))
    (b : FrequencyBands) (t phase time_hue base_hue : ℚ)
    (rot : Option ℚ) (ld : LightDescriptor) (s : EngineState) :
    (resolvePattern pattern zone_set ld ∉ no_bass_boost →
      (computeLight cfg n pattern zone_set (some b) t phase time_hue base_hue
          rot ld s).1.intensity
        = min 1 ((patternBranch cfg n (resolvePattern pattern zone_set ld)
            (some b) t phase time_hue
            (energy_to_color b.mid
              (pymod (base_hue
                + ((ld.global_index : ℚ) / ((max n 1 : ℕ) : ℚ)) * 0.2) 1))
            (((ld.global_index : ℚ) / ((max n 1 : ℕ) : ℚ)) * 0.2) ld s).1
          * (0.7 + 0.3 * b.low))) ∧
    (resolvePattern pattern zone_set ld ∈ no_bass_boost →
      (computeLight cfg n pattern zone_set (some b) t phase time_hue base_hue
          rot ld s).1.intensity
        = (patternBranch cfg n (resolvePattern pattern zone_set ld)
            (some b) t phase time_hue
            (energy_to_color b.mid
              (pymod (base_hue
                + ((ld.global_index : ℚ) / ((max n 1 : ℕ) : ℚ)) * 0.2) 1))
            (((ld.global_index : ℚ) / ((max n 1 : ℕ) : ℚ)) * 0.2) ld s).1) := by
  constructor
  · intro h
    unfold computeLight
    dsimp only
    rw [if_neg h]
  · intro h
    unfold computeLight
    dsimp only
    rw [if_pos h]

/-- Default-valued engine configuration (`__init__` defaults). -/
def cfgDefault : EngineConfig := ⟨3, false, 30, true, DEFAULT_ZONE_MIX_SETS, 14⟩

/-- Bands with every field at 1/2. -/
def bandsHalf : FrequencyBands := ⟨1/2, 1/2, 1/2, 1/2, 1/2⟩

/-- All-zero bands. -/
def bandsZero : FrequencyBands := ⟨0, 0, 0, 0, 0⟩

/-- First fixture of a one-light left zone. -/
def ldFirst : LightDescriptor := ⟨0, Zone.left, 0, 1⟩

theorem bass_boost_postprocessing_witness :
    resolvePattern Pattern.chase [] ldFirst ∉ no_bass_boost ∧
    (computeLight cfgDefault 1 Pattern.chase [] (some bandsHalf) 0 0 0 0 none
        ldFirst initEngineState).1.intensity
      = min 1 ((patternBranch cfgDefault 1
          (resolvePattern Pattern.chase [] ldFirst) (some bandsHalf) 0 0 0
          (energy_to_color bandsHalf.mid
            (pymod (0
              + ((ldFirst.global_index : ℚ) / ((max 1 1 : ℕ) : ℚ)) * 0.2) 1))
          (((ldFirst.global_index : ℚ) / ((max 1 1 : ℕ) : ℚ)) * 0.2) ldFirst
          initEngineState).1
        * (0.7 + 0.3 * bandsHalf.low)) := by
  have h : resolvePattern Pattern.chase [] ldFirst ∉ no_bass_boost := by decide
  exact ⟨h, (bass_boost_postprocessing cfgDefault 1 Pattern.chase []
    bandsHalf 0 0 0 0 none ldFirst initEngineState).1 h⟩

/-! ### Chase geometry (C6) -/

/-- Evaluating `pymod` of an integer by a natural number is the (non-negative)
integer remainder, matching Python's `%`. -/
theorem pymod_intCast (a : ℤ) (d : ℕ) :
    pymod (a : ℚ) (d : ℚ) = ((a % (d : ℤ) : ℤ) : ℚ) := by
  unfold pymod
  have h := @Int.mod_nat_eq_sub_mul_floor_rat_div a d
  have h2 : ((a % (d : ℤ) : ℤ) : ℚ)
      = (a : ℚ) - (d : ℚ) * ((⌊(a : ℚ) / (d : ℚ)⌋ : ℤ) : ℚ) := by
    exact_mod_cast congrArg (fun z : ℤ => (z : ℚ)) h
  rw [h2]

/-- C6: chase with `tail = 3` on a 19-fixture ring, at an instant where
the phase puts the head exactly on fixture `k` (`phase = k/19`): the
intensity of fixture `j` is `1 - d/4` for circular distance
`d = (j + 19 - k) mod 19 ≤ 3` and `0` beyond; in particular the head
(`j = k`, `d = 0`) is at intensity 1 and distance `tail + 1 = 4` is
the first to reach 0. -/
theorem chase_head_linear_tail (k j : ℕ) (hk : k < 19) (hj : j < 19) :
    (chase_intensity 19 ⟨j, Zone.left, j, 19⟩ ((k : ℚ) / 19) 3 false
      = if (j + 19 - k) % 19 ≤ 3
          then 1 - (((j + 19 - k) % 19 : ℕ) : ℚ) / 4 else 0) ∧
    (j = k → chase_intensity 19 ⟨j, Zone.left, j, 19⟩ ((k : ℚ) / 19) 3 false
      = 1) ∧
    ((j + 19 - k) % 19 = 4 →
      chase_intensity 19 ⟨j, Zone.left, j, 19⟩ ((k : ℚ) / 19) 3 false = 0) ∧
    (∀ (cfg : EngineConfig) (zone_set : List (String × String))
        (t time_hue base_hue : ℚ) (rot : Option ℚ) (s : EngineState),
      cfg.chase_tail = 3 →
      (computeLight cfg 19 Pattern.chase zone_set none t ((k : ℚ) / 19)
          time_hue base_hue rot ⟨j, Zone.left, j, 19⟩ s).1.intensity
        = chase_intensity 19 ⟨j, Zone.left, j, 19⟩ ((k : ℚ) / 19) 3 false) := by
  have main : chase_intensity 19 ⟨j, Zone.left, j, 19⟩ ((k : ℚ) / 19) 3 false
      = if (j + 19 - k) % 19 ≤ 3
          then 1 - (((j + 19 - k) % 19 : ℕ) : ℚ) / 4 else 0 := by
    unfold chase_intensity
    rw [if_neg (by norm_num : ¬(19 : ℕ) = 0)]
    simp only [Bool.false_eq_true, if_false]
    have harg : (((⟨j, Zone.left, j, 19⟩ : LightDescriptor).global_index : ℚ))
        - (k : ℚ) / 19 * ((19 : ℕ) : ℚ) + ((19 : ℕ) : ℚ)
        = (((j : ℤ) - (k : ℤ) + 19 : ℤ) : ℚ) := by
      push_cast
      field_simp
    rw [harg, pymod_intCast]
    have hint : ((j : ℤ) - (k : ℤ) + 19) % ((19 : ℕ) : ℤ)
        = (((j + 19 - k) % 19 : ℕ) : ℤ) := by
      omega
    rw [hint]
    have hcast : ((((j + 19 - k) % 19 : ℕ) : ℤ) : ℚ)
        = (((j + 19 - k) % 19 : ℕ) : ℚ) := by push_cast; rfl
    rw [hcast]
    have h3 : ((3 : ℕ) : ℚ) = 3 := by norm_num
    rw [h3]
    by_cases hd : (j + 19 - k) % 19 ≤ 3
    · rw [if_pos (by exact_mod_cast hd), if_pos hd]
      norm_num
    · rw [if_neg (by exact_mod_cast hd), if_neg hd]
  refine ⟨main, ?_, ?_, ?_⟩
  · intro hjk
    subst hjk
    rw [main]
    have hd : (j + 19 - j) % 19 = 0 := by omega
    rw [hd]
    norm_num
  · intro hd4
    rw [main, hd4]
    norm_num
  · intro cfg zone_set t time_hue base_hue rot s htail
    have hres : resolvePattern Pattern.chase zone_set ⟨j, Zone.left, j, 19⟩
        = Pattern.chase := by
      unfold resolvePattern
      rw [if_neg (by decide : ¬Pattern.chase = Pattern.zone_mix)]
    unfold computeLight
    dsimp only
    rw [hres]
    dsimp only [patternBranch]
    rw [htail]

theorem chase_head_linear_tail_witness :
    (5 : ℕ) < 19 ∧ (7 : ℕ) < 19 ∧
    (chase_intensity 19 ⟨7, Zone.left, 7, 19⟩ ((5 : ℚ) / 19) 3 false
      = if (7 + 19 - 5) % 19 ≤ 3
          then 1 - (((7 + 19 - 5) % 19 : ℕ) : ℚ) / 4 else 0) ∧
    (7 = 5 → chase_intensity 19 ⟨7, Zone.left, 7, 19⟩ ((5 : ℚ) / 19) 3 false
      = 1) ∧
    ((7 + 19 - 5) % 19 = 4 →
      chase_intensity 19 ⟨7, Zone.left, 7, 19⟩ ((5 : ℚ) / 19) 3 false = 0) ∧
    (∀ (cfg : EngineConfig) (zone_set : List (String × String))
        (t time_hue base_hue : ℚ) (rot : Option ℚ) (s : EngineState),
      cfg.chase_tail = 3 →
      (computeLight cfg 19 Pattern.chase zone_set none t ((5 : ℚ) / 19)
          time_hue base_hue rot ⟨7, Zone.left, 7, 19⟩ s).1.intensity
        = chase_intensity 19 ⟨7, Zone.left, 7, 19⟩ ((5 : ℚ) / 19) 3 false) :=
  ⟨by norm_num, by norm_num,
    chase_head_linear_tail 5 7 (by norm_num) (by norm_num)⟩

/-! ### Treble-hue color (C7) -/

/-- The treble-hue color as C7 words it.  Modelled from the spec: "hue
from `bands_to_hue` (plus the per-fixture hue offset) at full
saturation and full value, i.e. saturation = 1 and value = 1". -/
def specTrebleHueColor (b : FrequencyBands) (light_hue_offset : ℚ) :
    ℚ × ℚ × ℚ :=
  hue_to_rgb (pymod (bands_to_hue b + light_hue_offset) 1) 1 1

/-- C7 counterexample: with all-zero bands and offset 0 the source's
treble-hue branch produces `energy_to_color(1.0, 0.7)` =
`hue_to_rgb(0.7, 0.85, 1)` — saturation 0.85 and an extra 0.7 hue
shift — which differs from the spec's full-saturation color
`hue_to_rgb(0, 1, 1)`. -/
theorem treble_hue_counterexample :
    (patternBranch cfgDefault 1 Pattern.treble_hue (some bandsZero) 0 0 0
        ((0 : ℚ), (0 : ℚ), (0 : ℚ)) 0 ldFirst initEngineState).2.1
      ≠ specTrebleHueColor bandsZero 0 := by
  have h4 : Int.toNat 4 = 4 := rfl
  norm_num [patternBranch, specTrebleHueColor, bandsZero, energy_to_color,
    energy_to_hue, bands_to_hue, hue_to_rgb, pymod, pytrunc, h4]

/-- C7 (amended): for the treble_hue pattern with bands present, the
branch intensity rule is `0.5 + 0.5 * overall` (before the global
bass-boost post-processing), and the color is
`energy_to_color(1.0, bands_to_hue + offset)`: the hue is further
shifted by `1.0 * 0.7` (the energy spread) and rendered at saturation
0.85 and value `0.35 + 0.65 * 1 = 1` — full value, not full
saturation. -/
theorem treble_hue_branch (cfg : EngineConfig) (n : ℕ) (b : FrequencyBands)
    (t phase time_hue : ℚ) (color0 : ℚ × ℚ × ℚ) (off : ℚ)
    (ld : LightDescriptor) (s : EngineState) :
    (patternBranch cfg n Pattern.treble_hue (some b) t phase time_hue color0
        off ld s).1 = 0.5 + 0.5 * b.overall ∧
    (patternBranch cfg n Pattern.treble_hue (some b) t phase time_hue color0
        off ld s).2.1
      = hue_to_rgb (pymod (pymod (bands_to_hue b + off) 1 + 1 * 0.7) 1)
          0.85 1 := by
  constructor
  · rfl
  · show energy_to_color 1 (pymod (bands_to_hue b + off) 1)
      = hue_to_rgb (pymod (pymod (bands_to_hue b + off) 1 + 1 * 0.7) 1) 0.85 1
    unfold energy_to_color energy_to_hue
    norm_num

/-! ### Zone-mix fallback (C8) -/

/-- C8: when the zone-mix lookup for a fixture's zone either misses (the
zone name is absent, yielding the default "bass_flood") or returns a
string that is not one of the 18 pattern names (the `ValueError`
fallback), the fixture's whole per-loop result — light state and
advanced engine state — is exactly what the bass_flood pattern
produces; nothing is raised. -/
theorem zone_mix_unresolvable_falls_back (cfg : EngineConfig) (n : ℕ)
    (zone_set : List (String × String)) (bands : Option FrequencyBands)
    (t phase time_hue base_hue : ℚ) (rot : Option ℚ)
    (ld : LightDescriptor) (s : EngineState)
    (h : ∀ str, zone_set.lookup ld.zone.value = some str →
      patternOfString str = none) :
    computeLight cfg n Pattern.zone_mix zone_set bands t phase time_hue
        base_hue rot ld s
      = computeLight cfg n Pattern.bass_flood zone_set bands t phase time_hue
          base_hue rot ld s := by
  have hres : resolvePattern Pattern.zone_mix zone_set ld
      = Pattern.bass_flood := by
    unfold resolvePattern
    rw [if_pos rfl]
    cases hcase : zone_set.lookup ld.zone.value with
    | none => rfl
    | some str =>
      have hnone := h str hcase
      rw [Option.getD_some, hnone]
      rfl
  have hres2 : resolvePattern Pattern.bass_flood zone_set ld
      = Pattern.bass_flood := by
    unfold resolvePattern
    rw [if_neg (by decide : ¬Pattern.bass_flood = Pattern.zone_mix)]
  unfold computeLight
  dsimp only
  rw [hres, hres2]

theorem zone_mix_unresolvable_falls_back_witness :
    (∀ str, ([(("left" : String), ("strobe" : String))]).lookup
        ldFirst.zone.value = some str → patternOfString str = none) ∧
    computeLight cfgDefault 1 Pattern.zone_mix [("left", "strobe")]
        (some bandsHalf) 0 0 0 0 none ldFirst initEngineState
      = computeLight cfgDefault 1 Pattern.bass_flood [("left", "strobe")]
          (some bandsHalf) 0 0 0 0 none ldFirst initEngineState := by
  have h : ∀ str, ([(("left" : String), ("strobe" : String))]).lookup
      ldFirst.zone.value = some str → patternOfString str = none := by
    intro str hstr
    have hs : ("strobe" : String) = str := by
      have hred : ([(("left" : String), ("strobe" : String))]).lookup
          ldFirst.zone.value = some "strobe" := rfl
      rw [hred] at hstr
      exact Option.some.inj hstr
    rw [← hs]
    rfl
  exact ⟨h, zone_mix_unresolvable_falls_back cfgDefault 1 [("left", "strobe")]
    (some bandsHalf) 0 0 0 0 none ldFirst initEngineState h⟩

end ALC
